import Mathlib

/-!
Verification of the Intelligent-Contract-Parser repository.

The repository ships the React frontend (file upload, dashboard
statistics, contract detail view, API utilities) together with the
documentation of the document-intelligence pipeline (classifier,
extractors, confidence scorer, gap analyzer).  The pipeline's Python
services themselves are not part of the source tree, so those parts are
modelled from the specification; the frontend functions are embedded
directly from the TypeScript source.
-/

namespace ContractParser

/-! ### Contract-type classifier (spec section 4.2) -/

/-- Contract types recognised by the pipeline (spec section 3). -/
inductive ContractType
  | nda
  | employment
  | service
  | unknown
deriving DecidableEq, Repr

/-- Modelled from the spec: section 4.2 keeps, per type, a weighted set
of marker phrases for the classifier, whose Python implementation is not
in the source tree.  The spec fixes no concrete weights, so a uniform
weight of 10 per marker is used. -/
structure Marker where
  phrase : List Char
  weight : Nat
deriving DecidableEq, Repr

/-- Modelled from the spec: NDA marker phrases of section 4.2. -/
def ndaMarkers : List Marker :=
  [⟨"non-disclosure".toList, 10⟩,
   ⟨"disclosing party".toList, 10⟩,
   ⟨"confidential information".toList, 10⟩]

/-- Modelled from the spec: Employment marker phrases of section 4.2. -/
def employmentMarkers : List Marker :=
  [⟨"employee".toList, 10⟩,
   ⟨"employer".toList, 10⟩,
   ⟨"at-will".toList, 10⟩,
   ⟨"salary".toList, 10⟩]

/-- Modelled from the spec: Service marker phrases of section 4.2. -/
def serviceMarkers : List Marker :=
  [⟨"service provider".toList, 10⟩,
   ⟨"scope of services".toList, 10⟩,
   ⟨"service level agreement".toList, 10⟩]

/-- Marker table per contract type; UNKNOWN has no markers of its own. -/
def markersFor : ContractType → List Marker
  | .nda => ndaMarkers
  | .employment => employmentMarkers
  | .service => serviceMarkers
  | .unknown => []

/-- Modelled from the spec: raw classifier score of one type on the
normalized text, the sum of the weights of the markers present, each
marker counted once regardless of repetition (spec section 4.2). -/
def typeScore (t : ContractType) (text : List Char) : Nat :=
  (((markersFor t).filter fun m => decide (m.phrase <:+: text)).map Marker.weight).sum

/-- Modelled from the spec: the minimum absolute score below which the
classifier returns UNKNOWN (spec section 4.2); set to one marker weight. -/
def scoreThreshold : Nat := 10

/-- Modelled from the spec: the classifier selects the type with the
maximum raw score, returns UNKNOWN below the threshold, and breaks ties
in the fixed priority order NDA over Employment over Service
(spec section 4.2). -/
def classify (text : List Char) : ContractType :=
  let sN := typeScore .nda text
  let sE := typeScore .employment text
  let sS := typeScore .service text
  let m := max sN (max sE sS)
  if m < scoreThreshold then .unknown
  else if sN = m then .nda
  else if sE = m then .employment
  else .service

/-- A phrase occurring in a text still occurs after appending more text. -/
lemma occursAppend {m t u : List Char} (h : m <:+: t) : m <:+: t ++ u := by
  obtain ⟨s, e, he⟩ := h
  exact ⟨s, e ++ u, by rw [← he]; simp⟩

/-- Weakening the marker filter can only increase the summed weight. -/
lemma weightSum_mono (l : List Marker) (p q : Marker → Bool)
    (h : ∀ m, p m = true → q m = true) :
    ((l.filter p).map Marker.weight).sum ≤ ((l.filter q).map Marker.weight).sum := by
  induction l with
  | nil => simp
  | cons a l ih =>
    by_cases hp : p a = true
    · have hq := h a hp
      simp [List.filter_cons, hp, hq]
      omega
    · rw [Bool.not_eq_true] at hp
      cases hq : q a
      · simp [List.filter_cons, hp, hq]
        exact ih
      · simp [List.filter_cons, hp, hq]
        omega

/-- C7: for every document text and contract type, appending additional
text (in particular additional marker phrases of that type) never
decreases the type's classifier score; each marker contributes its
weight once, regardless of how often it repeats. -/
theorem classifier_score_append_mono (ty : ContractType) (t u : List Char) :
    typeScore ty t ≤ typeScore ty (t ++ u) := by
  unfold typeScore
  apply weightSum_mono
  intro m hm
  rw [decide_eq_true_iff] at hm ⊢
  exact occursAppend hm

/-! ### Extracted-data model (frontend types in App.tsx / types/contract) -/

/-- One row of a contract's itemized financial schedule
(interface LineItem in the frontend types). -/
structure LineItem where
  description : List Char
  quantity : Option ℚ
  unit_price : Option ℚ
  total_price : Option ℚ
  currency : Option String
  confidence_score : ℚ
deriving DecidableEq, Repr

/-- Financial section of the extracted data
(interface FinancialDetails in the frontend types). -/
structure FinancialDetails where
  total_contract_value : Option ℚ
  currency : Option String
  line_items : List LineItem
  confidence_score : ℚ
deriving DecidableEq, Repr

/-- Gap-analysis result (interface GapAnalysis in the frontend types). -/
structure GapAnalysis where
  missing_fields : List String
  critical_gaps : List String
  recommendations : List String
deriving DecidableEq, Repr

/-! ### Financial extraction (spec section 4.3) -/

/-- Numeric value of a digit run, most significant digit first. -/
def digitsToNat (ds : List Char) : Nat :=
  ds.foldl (fun acc c => 10 * acc + (c.toNat - 48)) 0

/-- Modelled from the spec: the monetary-figure scan of the extractors
of section 4.3, whose Python implementation is not in the source tree;
simplified to the first digit run following a dollar sign. -/
def firstAmount : List Char → Option Nat
  | [] => none
  | c :: cs =>
    if c = '$' ∧ cs.takeWhile Char.isDigit ≠ [] then
      some (digitsToNat (cs.takeWhile Char.isDigit))
    else firstAmount cs

/-- Modelled from the spec: financial extraction dispatched on the
classified contract type (spec section 4.3).  The NDA strategy
short-circuits to a fixed synthetic result: empty line items, no total
value, confidence 1.0, because absence is the structurally correct
outcome.  The Employment and Service strategies extract the first
monetary figure; the UNKNOWN fallback applies the Service patterns at a
reduced confidence ceiling. -/
def extractFinancial : ContractType → List Char → FinancialDetails
  | .nda, _ =>
    { total_contract_value := none
      currency := none
      line_items := []
      confidence_score := 1 }
  | .employment, text =>
    match firstAmount text with
    | some n =>
      { total_contract_value := some (n : ℚ)
        currency := some "USD"
        line_items := []
        confidence_score := 8/10 }
    | none =>
      { total_contract_value := none
        currency := none
        line_items := []
        confidence_score := 0 }
  | .service, text =>
    match firstAmount text with
    | some n =>
      { total_contract_value := some (n : ℚ)
        currency := some "USD"
        line_items := [⟨"service fee".toList, some 1, some (n : ℚ), some (n : ℚ), some "USD", 8/10⟩]
        confidence_score := 8/10 }
    | none =>
      { total_contract_value := none
        currency := none
        line_items := []
        confidence_score := 0 }
  | .unknown, text =>
    match firstAmount text with
    | some n =>
      { total_contract_value := some (n : ℚ)
        currency := some "USD"
        line_items := [⟨"service fee".toList, some 1, some (n : ℚ), some (n : ℚ), some "USD", 5/10⟩]
        confidence_score := 5/10 }
    | none =>
      { total_contract_value := none
        currency := none
        line_items := []
        confidence_score := 0 }

/-- C2: for every document classified as NDA, whatever the text content,
the financial section produced by the pipeline has confidence exactly
1.0, an empty line-item list, and no total value. -/
theorem nda_financial_fixed (text : List Char) (h : classify text = .nda) :
    (extractFinancial (classify text) text).confidence_score = 1 ∧
    (extractFinancial (classify text) text).line_items = [] ∧
    (extractFinancial (classify text) text).total_contract_value = none := by
  rw [h]
  exact ⟨rfl, rfl, rfl⟩

set_option maxRecDepth 100000 in
/-- Witness for C2 at a concrete NDA text. -/
theorem nda_financial_fixed_witness :
    classify "This non-disclosure agreement covers confidential information.".toList = .nda ∧
    (extractFinancial (classify "This non-disclosure agreement covers confidential information.".toList)
      "This non-disclosure agreement covers confidential information.".toList).confidence_score = 1 ∧
    (extractFinancial (classify "This non-disclosure agreement covers confidential information.".toList)
      "This non-disclosure agreement covers confidential information.".toList).line_items = [] ∧
    (extractFinancial (classify "This non-disclosure agreement covers confidential information.".toList)
      "This non-disclosure agreement covers confidential information.".toList).total_contract_value = none :=
  ⟨by decide, nda_financial_fixed _ (by decide)⟩

/-! ### Confidence scorer (spec section 4.4, README "Scoring Algorithm") -/

/-- Sections aggregated by the confidence scorer; the standard weight
table uses the first five, the NDA table uses parties, NDA-specific
elements, contact info and structure. -/
inductive ScoreSection
  | financial
  | parties
  | paymentTerms
  | sla
  | contactInfo
  | ndaElements
  | structureSec
deriving DecidableEq, Repr

/-- All sections, in the order the weight tables list them. -/
def allSections : List ScoreSection :=
  [.financial, .parties, .paymentTerms, .sla, .contactInfo, .ndaElements, .structureSec]

/-- Modelled from the spec: the two fixed section-weight tables of the
scorer (spec section 4.4; README section "Scoring Algorithm", which
documents the same tables).  Standard (Employment/Service/Unknown):
Financial 30, Parties 25, Payment Terms 20, SLA 15, Contact Info 10.
NDA: Parties 40, NDA-specific elements 30, Contact Info 20,
Structure 10.  Sections outside a table weigh 0. -/
def sectionWeight : ContractType → ScoreSection → Nat
  | .nda, .parties => 40
  | .nda, .ndaElements => 30
  | .nda, .contactInfo => 20
  | .nda, .structureSec => 10
  | .nda, _ => 0
  | _, .financial => 30
  | _, .parties => 25
  | _, .paymentTerms => 20
  | _, .sla => 15
  | _, .contactInfo => 10
  | _, _ => 0

/-- Modelled from the spec: section confidence is the mean of the
constituent fields' confidences; an empty section defaults to its
neutral value, 1.0 when structurally not applicable and 0 when
expected but missing (spec section 4.4). -/
def sectionConfidence (fields : List ℚ) (neutral : ℚ) : ℚ :=
  if fields = [] then neutral else fields.sum / fields.length

/-- Clamp an integer score to the range 0 to 100. -/
def clampScore (z : ℤ) : ℤ := max 0 (min 100 z)

/-- Modelled from the spec: overall confidence is the weighted sum of
section confidences under the type's weight table, rounded to the
nearest integer and clamped to the range 0 to 100 (spec section 4.4). -/
def overallScore (t : ContractType) (conf : ScoreSection → ℚ) : ℤ :=
  clampScore (round ((allSections.map fun s => (sectionWeight t s : ℚ) * conf s).sum))

/-- C3: for each contract type the scorer's section weights sum to
exactly 100, with the standard table (Employment, Service, Unknown)
assigning Financial 30, Parties 25, Payment Terms 20, SLA 15, Contact
Info 10, and the NDA table assigning Parties 40, NDA-specific elements
30, Contact Info 20, Structure 10. -/
theorem scorer_weights_sum_100 :
    ((allSections.map (sectionWeight .nda)).sum = 100 ∧
     (allSections.map (sectionWeight .employment)).sum = 100 ∧
     (allSections.map (sectionWeight .service)).sum = 100 ∧
     (allSections.map (sectionWeight .unknown)).sum = 100) ∧
    (sectionWeight .employment .financial = 30 ∧
     sectionWeight .employment .parties = 25 ∧
     sectionWeight .employment .paymentTerms = 20 ∧
     sectionWeight .employment .sla = 15 ∧
     sectionWeight .employment .contactInfo = 10) ∧
    (sectionWeight .service .financial = 30 ∧
     sectionWeight .service .parties = 25 ∧
     sectionWeight .service .paymentTerms = 20 ∧
     sectionWeight .service .sla = 15 ∧
     sectionWeight .service .contactInfo = 10) ∧
    (sectionWeight .unknown .financial = 30 ∧
     sectionWeight .unknown .parties = 25 ∧
     sectionWeight .unknown .paymentTerms = 20 ∧
     sectionWeight .unknown .sla = 15 ∧
     sectionWeight .unknown .contactInfo = 10) ∧
    (sectionWeight .nda .parties = 40 ∧
     sectionWeight .nda .ndaElements = 30 ∧
     sectionWeight .nda .contactInfo = 20 ∧
     sectionWeight .nda .structureSec = 10) := by
  decide

/-- A list of values in the unit interval has a sum between 0 and its
length. -/
lemma listSum_bounds (l : List ℚ) (h : ∀ x ∈ l, 0 ≤ x ∧ x ≤ 1) :
    0 ≤ l.sum ∧ l.sum ≤ l.length := by
  induction l with
  | nil => simp
  | cons a l ih =>
    have ha := h a (by simp)
    have ih' := ih fun x hx => h x (by simp [hx])
    simp only [List.sum_cons, List.length_cons]
    push_cast
    constructor
    · linarith [ih'.1, ha.1]
    · linarith [ih'.2, ha.2]

/-- Section confidences stay in the unit interval when the field
confidences and the neutral default do. -/
lemma sectionConfidence_bounds (fields : List ℚ) (neutral : ℚ)
    (hf : ∀ x ∈ fields, 0 ≤ x ∧ x ≤ 1) (hn : 0 ≤ neutral ∧ neutral ≤ 1) :
    0 ≤ sectionConfidence fields neutral ∧ sectionConfidence fields neutral ≤ 1 := by
  unfold sectionConfidence
  by_cases h : fields = []
  · simpa [h] using hn
  · have hb := listSum_bounds fields hf
    have hlen : 0 < (fields.length : ℚ) := by
      have h0 : fields.length ≠ 0 := by simpa [List.length_eq_zero] using h
      exact_mod_cast Nat.pos_of_ne_zero h0
    rw [if_neg h]
    constructor
    · exact div_nonneg hb.1 (le_of_lt hlen)
    · rw [div_le_one hlen]
      exact hb.2

/-- The weighted sum of section confidences is between 0 and 100. -/
lemma weightedSum_bounds (t : ContractType) (conf : ScoreSection → ℚ)
    (hc : ∀ s, 0 ≤ conf s ∧ conf s ≤ 1) :
    0 ≤ (allSections.map fun s => (sectionWeight t s : ℚ) * conf s).sum ∧
    (allSections.map fun s => (sectionWeight t s : ℚ) * conf s).sum ≤ 100 := by
  obtain ⟨h1a, h1b⟩ := hc .financial
  obtain ⟨h2a, h2b⟩ := hc .parties
  obtain ⟨h3a, h3b⟩ := hc .paymentTerms
  obtain ⟨h4a, h4b⟩ := hc .sla
  obtain ⟨h5a, h5b⟩ := hc .contactInfo
  obtain ⟨h6a, h6b⟩ := hc .ndaElements
  obtain ⟨h7a, h7b⟩ := hc .structureSec
  cases t <;>
    · simp only [allSections, List.map_cons, List.map_nil, List.sum_cons, List.sum_nil,
        sectionWeight]
      push_cast
      constructor <;> nlinarith

/-- Rounding keeps a rational between 0 and 100 inside the same integer
range. -/
lemma round_bounds {q : ℚ} (h0 : 0 ≤ q) (h100 : q ≤ 100) :
    0 ≤ round q ∧ round q ≤ 100 := by
  rw [round_eq]
  constructor
  · apply Int.le_floor.2
    push_cast
    linarith
  · have h : (⌊q + 1 / 2⌋ : ℤ) < 101 := by
      apply Int.floor_lt.2
      push_cast
      linarith
    omega

/-- C1: when every per-field confidence and every neutral default lies
in the unit interval, every section confidence lies in the unit
interval and the overall confidence score is an integer between 0 and
100; moreover the final clamp is a no-op, the score being exactly the
rounded weighted sum. -/
theorem pipeline_confidence_bounds (t : ContractType) (s : ScoreSection)
    (fields : ScoreSection → List ℚ) (neutral : ScoreSection → ℚ)
    (hf : ∀ s', ∀ x ∈ fields s', 0 ≤ x ∧ x ≤ 1)
    (hn : ∀ s', 0 ≤ neutral s' ∧ neutral s' ≤ 1) :
    (0 ≤ sectionConfidence (fields s) (neutral s) ∧
     sectionConfidence (fields s) (neutral s) ≤ 1) ∧
    0 ≤ overallScore t (fun s' => sectionConfidence (fields s') (neutral s')) ∧
    overallScore t (fun s' => sectionConfidence (fields s') (neutral s')) ≤ 100 ∧
    overallScore t (fun s' => sectionConfidence (fields s') (neutral s')) =
      round ((allSections.map fun s' =>
        (sectionWeight t s' : ℚ) * sectionConfidence (fields s') (neutral s')).sum) := by
  have hsec : ∀ s', 0 ≤ sectionConfidence (fields s') (neutral s') ∧
      sectionConfidence (fields s') (neutral s') ≤ 1 :=
    fun s' => sectionConfidence_bounds _ _ (hf s') (hn s')
  have hws := weightedSum_bounds t _ hsec
  have hr := round_bounds hws.1 hws.2
  have heq : overallScore t (fun s' => sectionConfidence (fields s') (neutral s')) =
      round ((allSections.map fun s' =>
        (sectionWeight t s' : ℚ) * sectionConfidence (fields s') (neutral s')).sum) := by
    unfold overallScore clampScore
    rw [min_eq_right hr.2, max_eq_right hr.1]
  exact ⟨hsec s, heq ▸ hr.1, heq ▸ hr.2, heq⟩

/-- Witness for C1 at a concrete type, section and confidence family. -/
theorem pipeline_confidence_bounds_witness :
    (0 ≤ sectionConfidence [(1 : ℚ)/2, 1] 1 ∧ sectionConfidence [(1 : ℚ)/2, 1] 1 ≤ 1) ∧
    0 ≤ overallScore .service (fun _ => sectionConfidence [(1 : ℚ)/2, 1] 1) ∧
    overallScore .service (fun _ => sectionConfidence [(1 : ℚ)/2, 1] 1) ≤ 100 ∧
    overallScore .service (fun _ => sectionConfidence [(1 : ℚ)/2, 1] 1) =
      round ((allSections.map fun s' =>
        (sectionWeight .service s' : ℚ) * sectionConfidence [(1 : ℚ)/2, 1] 1).sum) :=
  pipeline_confidence_bounds .service .financial (fun _ => [(1 : ℚ)/2, 1]) (fun _ => 1)
    (by
      intro s' x hx
      simp only [List.mem_cons, List.not_mem_nil, or_false] at hx
      rcases hx with rfl | rfl <;> norm_num)
    (by
      intro s'
      norm_num)

/-! ### Gap analyzer (spec section 4.5, README "Gap Analysis") -/

/-- Modelled from the spec: the per-type checklist of required fields
(spec section 4.5; README section "Gap Analysis"). -/
def requiredFields : ContractType → List String
  | .nda =>
    ["disclosing_party", "receiving_party", "confidentiality_period",
     "confidential_information_definition", "non_disclosure_obligations"]
  | .employment =>
    ["parties", "compensation", "payment_terms", "contact_info"]
  | .service =>
    ["parties", "financial_details", "payment_terms", "sla_metrics",
     "support_terms", "penalty_clauses"]
  | .unknown =>
    ["parties", "financial_details", "payment_terms"]

/-- Modelled from the spec: the smaller, type-specific critical subset
of the required checklist (spec section 4.5). -/
def criticalFields : ContractType → List String
  | .nda => ["disclosing_party", "receiving_party", "non_disclosure_obligations"]
  | .employment => ["parties", "compensation"]
  | .service => ["parties", "financial_details", "payment_terms"]
  | .unknown => ["parties"]

/-- Modelled from the spec: the fixed confidence threshold below which
a required field counts as missing (spec section 4.5 gives 0.3). -/
def missingThreshold : ℚ := 3/10

/-- A field is missing when absent or when its confidence is below the
threshold. -/
def fieldMissing : Option ℚ → Bool
  | none => true
  | some q => decide (q < missingThreshold)

/-- Modelled from the spec: deterministic template lookup keyed to the
missing field (spec section 4.5). -/
def recommendationFor (f : String) : String :=
  if f = "sla_metrics" then "Define measurable performance metrics and benchmarks."
  else "Provide the " ++ f ++ " information."

/-- Modelled from the spec: the gap analyzer compares the extracted
per-field confidences against the type's required checklist; missing
critical fields populate the critical gaps, and recommendations are
produced by template lookup (spec section 4.5). -/
def gapAnalyze (t : ContractType) (conf : String → Option ℚ) : GapAnalysis :=
  { missing_fields := (requiredFields t).filter fun f => fieldMissing (conf f)
    critical_gaps := (criticalFields t).filter fun f => fieldMissing (conf f)
    recommendations :=
      ((requiredFields t).filter fun f => fieldMissing (conf f)).map recommendationFor }

/-- Every critical field belongs to the required checklist. -/
lemma criticalSubset (t : ContractType) (f : String)
    (hf : f ∈ criticalFields t) : f ∈ requiredFields t := by
  cases t <;>
    · simp only [criticalFields, requiredFields, List.mem_cons, List.not_mem_nil,
        or_false] at hf ⊢
      tauto

/-- C4: every entry of critical gaps also appears in the missing
fields: the critical gaps list is a subset of the missing fields
list. -/
theorem critical_gaps_subset_missing (t : ContractType) (conf : String → Option ℚ)
    (f : String) (h : f ∈ (gapAnalyze t conf).critical_gaps) :
    f ∈ (gapAnalyze t conf).missing_fields := by
  simp only [gapAnalyze, List.mem_filter] at h ⊢
  exact ⟨criticalSubset t f h.1, h.2⟩

set_option maxRecDepth 100000 in
/-- Witness for C4 at a concrete contract type and confidence map. -/
theorem critical_gaps_subset_missing_witness :
    "disclosing_party" ∈ (gapAnalyze .nda fun _ => none).missing_fields :=
  critical_gaps_subset_missing .nda (fun _ => none) "disclosing_party" (by decide)

/-! ### File upload boundary (FileUpload.onDrop in the frontend) -/

/-- Boolean suffix test on strings, the model of JavaScript
String.endsWith. -/
def strEndsWith (s tail : String) : Bool := decide (tail.data <:+ s.data)

/-- Character-wise lowercasing, the model of JavaScript
String.toLowerCase on the ASCII filenames the upload boundary sees. -/
def strToLower (s : String) : String := ⟨s.data.map Char.toLower⟩

/-- The 50 MB upload cap of FileUpload.onDrop. -/
def maxFileSize : Nat := 50 * 1024 * 1024

/-- Error message for a non-PDF filename. -/
def pdfErrorMsg : String := "Only PDF files are allowed"

/-- Error message for an oversized file. -/
def sizeErrorMsg : String := "File size must be less than 50MB"

/-- Success message shown after a completed upload. -/
def uploadedMsg : String := "Contract uploaded successfully! Processing started."

/-- A dropped file as onDrop sees it: declared filename and size in
bytes. -/
structure UploadFile where
  name : String
  size : Nat
deriving DecidableEq, Repr

/-- The uploadStatus values of the FileUpload component. -/
inductive UploadBadge
  | idle
  | success
  | error
deriving DecidableEq, Repr

/-- The component state onDrop manipulates: isUploading, uploadStatus
and uploadMessage. -/
structure UploadState where
  isUploading : Bool
  uploadStatus : UploadBadge
  uploadMessage : String
deriving DecidableEq, Repr

/-- Everything one call of onDrop produces: the final component state,
whether contractApi.uploadContract was invoked, and the arguments passed
to the onUploadError and onUploadSuccess callbacks. -/
structure DropOutcome where
  state : UploadState
  apiCalled : Bool
  onUploadErrorArg : Option String
  onUploadSuccessArg : Option String
deriving DecidableEq, Repr

/-- The onDrop handler of FileUpload: returns on an empty accepted-file
list, takes the first file, rejects a filename whose lowercase form
does not end in ".pdf", rejects a size above the 50 MB cap, and
otherwise sets isUploading, awaits the upload (its result is the
uploadResult argument, an error already carrying the derived message
detail), and finally resets isUploading to false on both paths. -/
def onDrop (s0 : UploadState) (files : List UploadFile)
    (uploadResult : Except String String) : DropOutcome :=
  match files with
  | [] => ⟨s0, false, none, none⟩
  | file :: _ =>
    if ! strEndsWith (strToLower file.name) ".pdf" then
      ⟨{ s0 with uploadStatus := .error, uploadMessage := pdfErrorMsg },
        false, some pdfErrorMsg, none⟩
    else if maxFileSize < file.size then
      ⟨{ s0 with uploadStatus := .error, uploadMessage := sizeErrorMsg },
        false, some sizeErrorMsg, none⟩
    else
      match uploadResult with
      | .ok contractId => ⟨⟨false, .success, uploadedMsg⟩, true, none, some contractId⟩
      | .error e => ⟨⟨false, .error, e⟩, true, some e, none⟩

/-- C5: onDrop forwards a dropped file to the upload API exactly when
its declared filename ends with ".pdf" case-insensitively and its size
does not exceed the 50 MB cap; otherwise the corresponding error
message is reported and the API is never invoked. -/
theorem upload_boundary_forwards_iff (s0 : UploadState) (f : UploadFile)
    (r : Except String String) :
    (onDrop s0 [f] r).apiCalled =
      (strEndsWith (strToLower f.name) ".pdf" && decide (f.size ≤ maxFileSize)) ∧
    (onDrop s0 [f] r).onUploadErrorArg =
      (if strEndsWith (strToLower f.name) ".pdf" = false then some pdfErrorMsg
       else if maxFileSize < f.size then some sizeErrorMsg
       else match r with
            | .ok _ => none
            | .error e => some e) := by
  rcases le_or_lt f.size maxFileSize with hs | hs
  · cases hp : strEndsWith (strToLower f.name) ".pdf" <;>
      cases r <;>
        simp [onDrop, hp, hs, Nat.not_lt.2 hs]
  · cases hp : strEndsWith (strToLower f.name) ".pdf" <;>
      cases r <;>
        simp [onDrop, hp, hs, Nat.not_le.2 hs]

/-- C8: every execution of onDrop that passes validation ends with
isUploading equal to false, on the success path and on every error
path. -/
theorem upload_state_reset (s0 : UploadState) (files : List UploadFile)
    (f : UploadFile) (r : Except String String)
    (hh : files.head? = some f)
    (hp : strEndsWith (strToLower f.name) ".pdf" = true)
    (hs : f.size ≤ maxFileSize) :
    (onDrop s0 files r).state.isUploading = false := by
  cases files with
  | nil => simp at hh
  | cons a l =>
    have ha : a = f := by simpa using hh
    subst ha
    cases r <;> simp [onDrop, hp, Nat.not_lt.2 hs]

set_option maxRecDepth 100000 in
/-- Witness for C8 at a concrete valid file, on the failing upload
path. -/
theorem upload_state_reset_witness :
    (onDrop ⟨false, .idle, ""⟩ [⟨"contract.pdf", 1000⟩]
      (.error "Upload failed. Please try again.")).state.isUploading = false :=
  upload_state_reset ⟨false, .idle, ""⟩ [⟨"contract.pdf", 1000⟩] ⟨"contract.pdf", 1000⟩
    (.error "Upload failed. Please try again.") (by decide) (by decide) (by decide)

/-! ### Frontend contract model (types/contract declarations in App.tsx) -/

/-- Processing states of a submitted contract (enum ProcessingStatus). -/
inductive ProcessingStatus
  | pending
  | processing
  | completed
  | failed
deriving DecidableEq, Repr

/-- The JSON string value each ProcessingStatus member carries. -/
def statusString : ProcessingStatus → String
  | .pending => "pending"
  | .processing => "processing"
  | .completed => "completed"
  | .failed => "failed"

/-- Party section of the extracted data (interface PartyInfo). -/
structure PartyInfo where
  name : String
  role : String
  legal_entity : Option String
  registration_number : Option String
  address : Option String
  contact_person : Option String
  email : Option String
  phone : Option String
  confidence_score : ℚ
deriving DecidableEq, Repr

/-- Account section of the extracted data (interface AccountInfo). -/
structure AccountInfo where
  account_number : Option String
  billing_address : Option String
  billing_contact : Option String
  billing_email : Option String
  billing_phone : Option String
  technical_contact : Option String
  technical_email : Option String
  confidence_score : ℚ
deriving DecidableEq, Repr

/-- Payment-terms section of the extracted data
(interface PaymentTerms). -/
structure PaymentTerms where
  payment_terms : Option String
  payment_schedule : Option String
  due_dates : List String
  payment_method : Option String
  banking_details : Option String
  confidence_score : ℚ
deriving DecidableEq, Repr

/-- Revenue-classification section of the extracted data
(interface RevenueClassification). -/
structure RevenueClassification where
  payment_type : Option String
  billing_cycle : Option String
  renewal_terms : Option String
  auto_renewal : Option Bool
  contract_duration : Option String
  confidence_score : ℚ
deriving DecidableEq, Repr

/-- SLA section of the extracted data (interface SLAInfo); the untyped
benchmarks record is modelled as string pairs. -/
structure SLAInfo where
  performance_metrics : List String
  benchmarks : List (String × String)
  penalty_clauses : List String
  remedies : List String
  support_terms : Option String
  maintenance_terms : Option String
  confidence_score : ℚ
deriving DecidableEq, Repr

/-- The full extracted-data tree (interface ContractData). -/
structure ContractData where
  parties : List PartyInfo
  account_info : AccountInfo
  financial_details : FinancialDetails
  payment_terms : PaymentTerms
  revenue_classification : RevenueClassification
  sla_info : SLAInfo
  overall_confidence_score : ℤ
  gap_analysis : GapAnalysis
deriving DecidableEq, Repr

/-- A stored contract as the frontend receives it
(interface Contract). -/
structure Contract where
  contract_id : String
  filename : String
  file_size : Nat
  status : ProcessingStatus
  data : Option ContractData
  created_at : String
  updated_at : String
deriving DecidableEq, Repr

/-! ### Contract detail view (ContractDetail.tsx) -/

/-- What the mount effect of ContractDetail decides to do: nothing,
take the data already on the contract prop, or call the data API. -/
inductive FetchAction
  | noFetch
  | useProp
  | callApi
deriving DecidableEq, Repr

/-- The useEffect of ContractDetail: when the status is COMPLETED and
the prop already carries data, use it; when the status is COMPLETED
without data, call loadContractData; otherwise do nothing. -/
def detailEffect (c : Contract) : FetchAction :=
  if c.status = .completed ∧ c.data.isSome then .useProp
  else if c.status = .completed then .callApi
  else .noFetch

/-- Local state of the ContractDetail component. -/
structure DetailState where
  contractData : Option ContractData
  loading : Bool
  error : Option String
deriving DecidableEq, Repr

/-- Initial component state: no data, not loading, no error. -/
def initialDetailState : DetailState := ⟨none, false, none⟩

/-- Component state once the mount effect has run; the api argument is
the outcome loadContractData would observe, its error already carrying
the derived message detail. -/
def stateAfterEffect (c : Contract) (api : Except String (Option ContractData)) :
    DetailState :=
  match detailEffect c with
  | .noFetch => initialDetailState
  | .useProp => { initialDetailState with contractData := c.data }
  | .callApi =>
    match api with
    | .ok d => ⟨d, false, none⟩
    | .error e => ⟨none, false, some e⟩

/-- What the render of ContractDetail shows, in the order of its early
returns: spinner while loading, the error view, the
processing-not-complete notice, the no-data notice, or the full
ContractData tree. -/
inductive DetailView
  | spinner
  | errorView (msg : String)
  | processingNotice (st : ProcessingStatus)
  | noData
  | dataView (d : ContractData)
deriving DecidableEq, Repr

/-- The render function of ContractDetail. -/
def renderDetail (c : Contract) (s : DetailState) : DetailView :=
  if s.loading then .spinner
  else
    match s.error with
    | some e => .errorView e
    | none =>
      if c.status ≠ .completed then .processingNotice c.status
      else
        match s.contractData with
        | none => .noData
        | some d => .dataView d

/-- Whether a view renders the ContractData tree. -/
def isDataView : DetailView → Bool
  | .dataView _ => true
  | _ => false

/-- C6: when a contract's processing state is not COMPLETED, the detail
view neither requests nor renders the ContractData tree: the mount
effect fetches nothing, the resulting render is the
processing-not-complete notice, and no component state whatsoever makes
the render show the data tree. -/
theorem detail_only_when_completed (c : Contract)
    (api : Except String (Option ContractData)) (s : DetailState)
    (h : c.status ≠ .completed) :
    detailEffect c = .noFetch ∧
    renderDetail c (stateAfterEffect c api) = .processingNotice c.status ∧
    isDataView (renderDetail c s) = false := by
  have he : detailEffect c = .noFetch := by
    simp [detailEffect, h]
  refine ⟨he, ?_, ?_⟩
  · rw [stateAfterEffect.eq_def, he]
    simp [renderDetail, initialDetailState, h]
  · rcases s with ⟨cd, l, er⟩
    cases l <;> rcases er with _ | e <;> simp [renderDetail, isDataView, h]

/-- Witness for C6 at a concrete processing contract. -/
theorem detail_only_when_completed_witness :
    detailEffect ⟨"c1", "a.pdf", 10, .processing, none, "t0", "t1"⟩ = .noFetch ∧
    renderDetail ⟨"c1", "a.pdf", 10, .processing, none, "t0", "t1"⟩
      (stateAfterEffect ⟨"c1", "a.pdf", 10, .processing, none, "t0", "t1"⟩ (.ok none)) =
      .processingNotice .processing ∧
    isDataView (renderDetail ⟨"c1", "a.pdf", 10, .processing, none, "t0", "t1"⟩
      initialDetailState) = false :=
  detail_only_when_completed ⟨"c1", "a.pdf", 10, .processing, none, "t0", "t1"⟩
    (.ok none) initialDetailState (by decide)

/-! ### File-size formatting (formatFileSize in services/api.ts) -/

/-- The unit labels of formatFileSize; JavaScript sizes[i] for i past
the last index is undefined, which string concatenation renders as
"undefined". -/
def fileSizeUnits : List String := ["Bytes", "KB", "MB", "GB"]

/-- The unit index Math.floor(Math.log(bytes) / Math.log(1024)) of
formatFileSize, embedded as the exact integer logarithm. -/
def unitIndex (bytes : Nat) : Nat := Nat.log 1024 bytes

/-- formatFileSize from api.ts.  The floating-point numeric prefix
parseFloat((bytes / Math.pow(k, i)).toFixed(2)) is abstracted as the
numStr parameter, since floating point lies outside the embedding and
the unit suffix never depends on it. -/
def formatFileSize (numStr : Nat → Nat → String) (bytes : Nat) : String :=
  if bytes = 0 then "0 Bytes"
  else numStr bytes (unitIndex bytes) ++ " " ++
    ((fileSizeUnits.get? (unitIndex bytes)).getD "undefined")

/-- Whether a formatted string ends in one of the unit labels. -/
def endsInUnit (s : String) : Bool := fileSizeUnits.any fun u => strEndsWith s u

/-- A suffix of a list is the drop at the matching position. -/
lemma suffix_eq_drop {t l : List Char} (h : t <:+ l) :
    t = l.drop (l.length - t.length) := by
  obtain ⟨w, hw⟩ := h
  subst hw
  have hl : (w ++ t).length - t.length = w.length := by
    rw [List.length_append]
    omega
  rw [hl, List.drop_left]

/-- Dropping more of a list yields a suffix of dropping less. -/
lemma drop_suffix_drop (l : List Char) {m n : Nat} (h : n ≤ m) :
    l.drop m <:+ l.drop n := by
  have he : l.drop m = (l.drop n).drop (m - n) := by
    rw [List.drop_drop]
    congr 1
    omega
  rw [he]
  exact List.drop_suffix _ _

/-- Two suffixes of the same list are comparable: the shorter is a
suffix of the longer. -/
lemma suffix_comparable {l t u : List Char} (ht : t <:+ l) (hu : u <:+ l)
    (hlen : t.length ≤ u.length) : t <:+ u := by
  have het := suffix_eq_drop ht
  have heu := suffix_eq_drop hu
  rw [het, heu]
  exact drop_suffix_drop l (by omega)

/-- Unfolding of the string suffix test. -/
lemma strEndsWith_iff (s t : String) : strEndsWith s t = true ↔ t.data <:+ s.data := by
  unfold strEndsWith
  exact decide_eq_true_iff

/-- A concatenation always ends with its final block. -/
lemma strEndsWith_append (pre t : String) : strEndsWith (pre ++ t) t = true := by
  rw [strEndsWith_iff, String.data_append]
  exact List.suffix_append _ _

/-- A probe no longer than the final block is a suffix of the whole
only if it is a suffix of that block. -/
lemma strEndsWith_append_short {t u : String} (pre : String)
    (hlen : u.data.length ≤ t.data.length) (hne : strEndsWith t u = false) :
    strEndsWith (pre ++ t) u = false := by
  cases hc : strEndsWith (pre ++ t) u
  · rfl
  · exfalso
    rw [strEndsWith_iff, String.data_append] at hc
    have hsub : u.data <:+ t.data :=
      suffix_comparable hc (List.suffix_append _ _) hlen
    have h2 : strEndsWith t u = true := (strEndsWith_iff t u).2 hsub
    rw [hne] at h2
    exact Bool.false_ne_true h2

/-- A probe longer than the final block is a suffix of the whole only
if that block is a suffix of the probe. -/
lemma strEndsWith_append_long {t u : String} (pre : String)
    (hlen : t.data.length ≤ u.data.length) (hne : strEndsWith u t = false) :
    strEndsWith (pre ++ t) u = false := by
  cases hc : strEndsWith (pre ++ t) u
  · rfl
  · exfalso
    rw [strEndsWith_iff, String.data_append] at hc
    have hsub : t.data <:+ u.data :=
      suffix_comparable (List.suffix_append _ _) hc hlen
    have h2 : strEndsWith u t = true := (strEndsWith_iff u t).2 hsub
    rw [hne] at h2
    exact Bool.false_ne_true h2

/-- No unit label is a suffix of "undefined", and all are shorter. -/
lemma unit_not_undefined :
    ∀ x ∈ fileSizeUnits,
      strEndsWith "undefined" x = false ∧ x.data.length ≤ "undefined".data.length := by
  decide

/-- In range, the formatted string ends in its unit and not in
"undefined". -/
lemma formatFileSize_small (numStr : Nat → Nat → String) (bytes : Nat) (u : String)
    (hget : fileSizeUnits.get? (unitIndex bytes) = some u) (hb0 : bytes ≠ 0) :
    endsInUnit (formatFileSize numStr bytes) = true ∧
    strEndsWith (formatFileSize numStr bytes) "undefined" = false := by
  have hu : u ∈ fileSizeUnits := List.get?_mem hget
  have hform : formatFileSize numStr bytes =
      numStr bytes (unitIndex bytes) ++ " " ++ u := by
    unfold formatFileSize
    rw [if_neg hb0, hget]
    rfl
  constructor
  · rw [hform]
    unfold endsInUnit
    rw [List.any_eq_true]
    exact ⟨u, hu, strEndsWith_append _ _⟩
  · rw [hform]
    exact strEndsWith_append_long _ (unit_not_undefined u hu).2 (unit_not_undefined u hu).1

/-- Out of range, the formatted string ends in "undefined" and in no
unit. -/
lemma formatFileSize_large (numStr : Nat → Nat → String) (bytes : Nat)
    (hb0 : bytes ≠ 0)
    (hnone : fileSizeUnits.get? (unitIndex bytes) = none) :
    endsInUnit (formatFileSize numStr bytes) = false ∧
    strEndsWith (formatFileSize numStr bytes) "undefined" = true := by
  have hform : formatFileSize numStr bytes =
      numStr bytes (unitIndex bytes) ++ " " ++ "undefined" := by
    unfold formatFileSize
    rw [if_neg hb0, hnone]
    rfl
  constructor
  · rw [hform]
    unfold endsInUnit
    rw [List.any_eq_false]
    intro x hx
    rw [strEndsWith_append_short _ (unit_not_undefined x hx).2 (unit_not_undefined x hx).1]
    exact Bool.false_ne_true
  · rw [hform]
    exact strEndsWith_append _ _

/-- C9: formatFileSize returns a string ending in one of the units
Bytes, KB, MB, GB exactly when its input lies below 1024 to the fourth
power; at or above that bound the computed unit index exceeds the last
index of the sizes array and the returned string ends in
"undefined". -/
theorem formatFileSize_unit_range (numStr : Nat → Nat → String) (bytes : Nat) :
    (endsInUnit (formatFileSize numStr bytes) = true ↔ bytes < 1024 ^ 4) ∧
    ((3 < unitIndex bytes) ↔ 1024 ^ 4 ≤ bytes) ∧
    (strEndsWith (formatFileSize numStr bytes) "undefined" = true ↔ 1024 ^ 4 ≤ bytes) := by
  by_cases hb0 : bytes = 0
  · subst hb0
    have h00 : formatFileSize numStr 0 = "0 Bytes" := rfl
    refine ⟨?_, ?_, ?_⟩
    · rw [h00]
      exact iff_of_true (by decide) (by norm_num)
    · refine iff_of_false ?_ (by norm_num)
      unfold unitIndex
      rw [Nat.log_zero_right]
      omega
    · rw [h00]
      exact iff_of_false (by decide) (by norm_num)
  · by_cases hlt : bytes < 1024 ^ 4
    · have hi : unitIndex bytes < 4 := Nat.log_lt_of_lt_pow hb0 hlt
      obtain ⟨u, hu⟩ : ∃ u, fileSizeUnits.get? (unitIndex bytes) = some u := by
        cases hcase : fileSizeUnits.get? (unitIndex bytes)
        · exfalso
          rw [List.get?_eq_none] at hcase
          simp only [fileSizeUnits, List.length_cons, List.length_nil] at hcase
          omega
        · exact ⟨_, rfl⟩
      have hsm := formatFileSize_small numStr bytes u hu hb0
      refine ⟨iff_of_true hsm.1 hlt, iff_of_false (by omega) (Nat.not_le.2 hlt), ?_⟩
      refine iff_of_false ?_ (Nat.not_le.2 hlt)
      rw [hsm.2]
      exact Bool.false_ne_true
    · have hge : 1024 ^ 4 ≤ bytes := Nat.not_lt.1 hlt
      have hi4 : 4 ≤ unitIndex bytes := (Nat.pow_le_iff_le_log (by norm_num) hb0).1 hge
      have hnone : fileSizeUnits.get? (unitIndex bytes) = none := by
        rw [List.get?_eq_none]
        simp only [fileSizeUnits, List.length_cons, List.length_nil]
        omega
      have hlg := formatFileSize_large numStr bytes hb0 hnone
      refine ⟨?_, iff_of_true (by omega) hge, iff_of_true hlg.2 hge⟩
      refine iff_of_false ?_ (Nat.not_lt.2 hge)
      rw [hlg.1]
      exact Bool.false_ne_true

/-! ### Dashboard statistics (Dashboard.loadStatistics) -/

/-- The statistics record the dashboard shows. -/
structure Stats where
  total : Nat
  processed : Nat
  failed : Nat
  pending : Nat
deriving DecidableEq, Repr

/-- A contract as the list endpoint hands it to the dashboard; only the
JSON status string matters to the statistics. -/
structure DashContract where
  status : String
deriving DecidableEq, Repr

/-- loadStatistics from Dashboard: total is the list length, processed
counts status "completed", failed counts status "failed", and the
counter labelled pending counts status "processing". -/
def loadStatistics (contracts : List DashContract) : Stats :=
  { total := contracts.length
    processed := (contracts.filter fun c => c.status == "completed").length
    failed := (contracts.filter fun c => c.status == "failed").length
    pending := (contracts.filter fun c => c.status == "processing").length }

/-- C10: the dashboard's pending counter counts exactly the contracts
whose status string is "processing"; a contract with status "pending"
raises the total but none of the processed, failed or pending
buckets. -/
theorem dashboard_pending_counts_processing (cs : List DashContract) :
    (loadStatistics cs).total = cs.length ∧
    (loadStatistics cs).processed = (cs.filter fun c => c.status == "completed").length ∧
    (loadStatistics cs).failed = (cs.filter fun c => c.status == "failed").length ∧
    (loadStatistics cs).pending = (cs.filter fun c => c.status == "processing").length ∧
    (loadStatistics (⟨"pending"⟩ :: cs)).total = (loadStatistics cs).total + 1 ∧
    (loadStatistics (⟨"pending"⟩ :: cs)).processed = (loadStatistics cs).processed ∧
    (loadStatistics (⟨"pending"⟩ :: cs)).failed = (loadStatistics cs).failed ∧
    (loadStatistics (⟨"pending"⟩ :: cs)).pending = (loadStatistics cs).pending := by
  refine ⟨rfl, rfl, rfl, rfl, ?_, ?_, ?_, ?_⟩ <;>
    simp [loadStatistics, List.filter_cons]

end ContractParser
